import Mathlib

/-
  Verification development for the tvrank IMDB indexing/query engine.

  Shallow embedding of the core components:
  - src/imdb/basics.rs   : the per-shard title catalog (Basics) and its
    insertion routine add_basics_from_line plus the name/year lookups;
  - src/imdb/ratings.rs  : the Ratings table with add_rating_from_line and
    new_from_buf (including a model of IEEE binary32 arithmetic for the
    rating field, which the source routes through f32);
  - src/imdb/service.rs  : the load orchestrator parse_basics and the
    fan-out/merge query function.

  The modules title.rs, error.rs, genre.rs and parsing.rs of the repository
  are not present under src/; the definitions below that embed their
  contents are modelled from the specification and say so in their doc
  comments.  Rust machine integers are modelled as Nat with explicit range
  checks where the source enforces them; hash maps are modelled as
  association lists whose iteration order is insertion order (the source
  maps have an unspecified order); fallible code returns Except.
-/

/-- Modelled from the spec: the error enumeration of the missing error.rs
(section 7 of the spec), restricted to the variants used by basics.rs,
ratings.rs and service.rs.  The identifier carried by duplicateId is the
decoded numeric form of the title identifier. -/
inductive Err where
  | eof
  | id
  | titleType
  | adult
  | startYear
  | endYear
  | runtimeMinutes
  | genre
  | rating
  | votes
  | duplicateId (id : Nat)
  deriving DecidableEq, Repr

deriving instance DecidableEq for Except

/-- Decimal digit accumulation used by the numeric field parsers. -/
def digitsToNat (cs : List Char) : Nat :=
  cs.foldl (fun n c => n * 10 + (c.toNat - 48)) 0

/-- Parses a nonempty all-digit character list, the shared core of the
atoi-style field parsers. -/
def decDigits? (cs : List Char) : Option Nat :=
  if cs = [] then none
  else if cs.all Char.isDigit then some (digitsToNat cs) else none

/-- Splitting a character list on a separator, the model of the byte-slice
split calls of the source (an empty input yields one empty chunk, exactly
like slice::split). -/
def splitOnChar (sep : Char) : List Char → List (List Char)
  | [] => [[]]
  | c :: rest =>
    let r := splitOnChar sep rest
    if c = sep then [] :: r
    else
      match r with
      | [] => [[c]]
      | g :: gs => (c :: g) :: gs

/-- Splitting a string on a separator character, the model of
line.split(TAB), buf.split(NEWLINE) and the genre-list split on COMMA. -/
def splitFields (s : String) (sep : Char) : List String :=
  (splitOnChar sep s.data).map String.mk

/-- Lowercasing of a name before index registration (str::to_lowercase in
the source; the model lowercases characterwise, which agrees on ASCII). -/
def strToLower (s : String) : String :=
  String.mk (s.data.map Char.toLower)

/-- Modelled from the spec: TitleId parsing from the missing title.rs.
The identifier must be the fixed prefix tt followed by a nonempty string of
decimal digits; its canonical form for indexing and equality is the decoded
unsigned integer (spec section 3).  On mismatch the parse fails with the
InvalidIdentifier error. -/
def parseTitleId (s : String) : Except Err Nat :=
  match s.data with
  | 't' :: 't' :: rest =>
    match decDigits? rest with
    | some n => .ok n
    | none => .error .id
  | _ => .error .id

/-- Modelled from the spec: the classification enumeration of the missing
title.rs.  The spec fixes only the three groups (movie-like, series-like,
other-and-discarded) and that unrecognized tokens are a parse error; the
token set below is a representative enumeration of the IMDB dump
classifications. -/
inductive TitleType where
  | movie
  | tvMovie
  | tvSeries
  | tvMiniSeries
  | short
  | tvShort
  | tvEpisode
  | tvSpecial
  | video
  | videoGame
  deriving DecidableEq, Repr

/-- Modelled from the spec: classification token decoding of the missing
title.rs; unrecognized tokens fail (mapped to the InvalidClassification
error by the caller). -/
def TitleType.fromStr (s : String) : Option TitleType :=
  if s = "movie" then some .movie
  else if s = "tvMovie" then some .tvMovie
  else if s = "tvSeries" then some .tvSeries
  else if s = "tvMiniSeries" then some .tvMiniSeries
  else if s = "short" then some .short
  else if s = "tvShort" then some .tvShort
  else if s = "tvEpisode" then some .tvEpisode
  else if s = "tvSpecial" then some .tvSpecial
  else if s = "video" then some .video
  else if s = "videoGame" then some .videoGame
  else none

/-- Modelled from the spec: the movie-like classification group of the
missing title.rs. -/
def TitleType.isMovie : TitleType → Bool
  | .movie => true
  | .tvMovie => true
  | _ => false

/-- Modelled from the spec: the series-like classification group of the
missing title.rs. -/
def TitleType.isSeries : TitleType → Bool
  | .tvSeries => true
  | .tvMiniSeries => true
  | _ => false

/-- Modelled from the spec: the fixed small genre enumeration of the
missing genre.rs (spec section 3); unknown tokens are a hard parse
error. -/
inductive Genre where
  | drama
  | comedy
  | action
  | documentary
  | animation
  | romance
  | thriller
  | horror
  | crime
  | adventure
  deriving DecidableEq, Repr

/-- Modelled from the spec: genre token decoding of the missing
genre.rs. -/
def Genre.fromStr (s : String) : Option Genre :=
  if s = "Drama" then some .drama
  else if s = "Comedy" then some .comedy
  else if s = "Action" then some .action
  else if s = "Documentary" then some .documentary
  else if s = "Animation" then some .animation
  else if s = "Romance" then some .romance
  else if s = "Thriller" then some .thriller
  else if s = "Horror" then some .horror
  else if s = "Crime" then some .crime
  else if s = "Adventure" then some .adventure
  else none

/-- Modelled from the spec: the bit index of a genre inside the genre
bit-set of the missing genre.rs. -/
def Genre.idx : Genre → Nat
  | .drama => 0
  | .comedy => 1
  | .action => 2
  | .documentary => 3
  | .animation => 4
  | .romance => 5
  | .thriller => 6
  | .horror => 7
  | .crime => 8
  | .adventure => 9

/-- Modelled from the spec: the genre bit-set of the missing genre.rs
(spec section 3: a bounded set represented as a bit-set, duplicates
collapse). -/
structure Genres where
  bits : Nat
  deriving DecidableEq, Repr

/-- Modelled from the spec: the empty genre set (Genres::default of the
missing genre.rs). -/
def Genres.default : Genres := ⟨0⟩

/-- Modelled from the spec: Genres::add_genre of the missing genre.rs sets
the bit of the given genre. -/
def Genres.addGenre (g : Genres) (x : Genre) : Genres :=
  ⟨g.bits ||| (2 ^ x.idx)⟩

/-- Modelled from the spec: the sentinel token of the missing parsing.rs
denoting an absent optional value in the dump format (spec section 6). -/
def notAvail : String := "\\N"

/-- Embeds atoi with a u16 target, used by add_basics_from_line for the
year and runtime fields: the whole field must be decimal digits and the
value must fit in 16 bits, otherwise the parse yields nothing. -/
def parseU16 (s : String) : Option Nat :=
  match decDigits? s.data with
  | some n => if n < 65536 then some n else none
  | none => none

/-- Embeds atoi with a u64 target, used by add_rating_from_line for the
vote count. -/
def parseU64 (s : String) : Option Nat :=
  match decDigits? s.data with
  | some n => if n < 18446744073709551616 then some n else none
  | none => none

/-- One decoded title record (struct TitleBasics of the missing title.rs,
as constructed field by field inside Basics::add_basics_from_line).
Machine integers are Nat, optional numeric fields are Option Nat, text
fields are the strings borrowed from the input line. -/
structure TitleBasics where
  title_id : Nat
  title_type : TitleType
  primary_title : String
  original_title : String
  is_adult : Bool
  start_year : Option Nat
  end_year : Option Nat
  runtime_minutes : Option Nat
  genres : Genres
  deriving DecidableEq, Repr

/-- A placeholder record used as the default of List.getD when a cookie is
dereferenced; the bounds theorems show reachable states never hit it. -/
def dummyTitle : TitleBasics :=
  ⟨0, .movie, "", "", false, none, none, none, Genres.default⟩

/-- ByYear of basics.rs: the map from optional start year to the list of
cookies registered under that year, modelled as an association list in
insertion order.  Cookies are the bare Nat indices carried by MoviesCookie
and SeriesCookie. -/
abbrev ByYear : Type := List (Option Nat × List Nat)

/-- ByTitle of basics.rs: the map from lowercased name to its ByYear map,
modelled as an association list in insertion order. -/
abbrev ByTitle : Type := List (String × ByYear)

/-- Association-list lookup, the model of HashMap::get: the value of the
first entry with the given key. -/
def lookupA {α β : Type} [DecidableEq α] : List (α × β) → α → Option β
  | [], _ => none
  | (k, v) :: rest, a => if k = a then some v else lookupA rest a

/-- The inner HashMap entry call of Basics::insert_title:
by_year.entry(year) either pushes the cookie onto the existing vector or
inserts a fresh single-cookie vector. -/
def insertYear (by_year : ByYear) (year : Option Nat) (cookie : Nat) : ByYear :=
  match by_year with
  | [] => [(year, [cookie])]
  | (y, cs) :: rest =>
    if y = year then (y, cs ++ [cookie]) :: rest
    else (y, cs) :: insertYear rest year cookie

/-- Basics::insert_title of basics.rs: db.entry(title) either updates the
existing ByYear map via insertYear or inserts a fresh one holding only this
cookie under this year. -/
def insert_title (db : ByTitle) (cookie : Nat) (title : String) (year : Option Nat) : ByTitle :=
  match db with
  | [] => [(title, [(year, [cookie])])]
  | (t, by_year) :: rest =>
    if t = title then (t, insertYear by_year year cookie) :: rest
    else (t, by_year) :: insert_title rest cookie title year

/-- The Basics shard of basics.rs: dense movie and series record vectors
plus the two name-to-year-to-cookie indices. -/
structure Basics where
  movies : List TitleBasics
  movies_titles : ByTitle
  series : List TitleBasics
  series_titles : ByTitle
  deriving DecidableEq

/-- Basics::default: the empty shard. -/
def Basics.default : Basics := ⟨[], [], [], []⟩

/-- Basics::n_movies. -/
def Basics.n_movies (self : Basics) : Nat := self.movies.length

/-- Basics::n_series. -/
def Basics.n_series (self : Basics) : Nat := self.series.length

/-- The Index impl for MoviesCookie: self.movies.get_unchecked(cookie).
The unchecked access is modelled as getD with a placeholder default; the
cookie-validity theorems show the default branch is unreachable from
states built by add_basics_from_line. -/
def Basics.movieAt (self : Basics) (cookie : Nat) : TitleBasics :=
  self.movies.getD cookie dummyTitle

/-- The Index impl for SeriesCookie: self.series.get_unchecked(cookie). -/
def Basics.seriesAt (self : Basics) (cookie : Nat) : TitleBasics :=
  self.series.getD cookie dummyTitle

/-- The pure parsing phase of Basics::add_basics_from_line: split the line
on tabs, decode the fields in source order, and either fail with the first
field error, succeed with none when the classification is neither
movie-like nor series-like (the source returns Ok early before reading any
further field), or succeed with the decoded record. -/
def parseBasicsLine (line : String) : Except Err (Option TitleBasics) :=
  let fs := splitFields line '\t'
  match fs.get? 0 with
  | none => .error .eof
  | some f0 =>
  match parseTitleId f0 with
  | .error e => .error e
  | .ok title_id =>
  match fs.get? 1 with
  | none => .error .eof
  | some f1 =>
  match TitleType.fromStr f1 with
  | none => .error .titleType
  | some title_type =>
  if ¬ title_type.isMovie ∧ ¬ title_type.isSeries then .ok none
  else
  match fs.get? 2 with
  | none => .error .eof
  | some primary_title =>
  match fs.get? 3 with
  | none => .error .eof
  | some original_title =>
  match fs.get? 4 with
  | none => .error .eof
  | some f4 =>
  match (if f4 = "0" then some false else if f4 = "1" then some true else none) with
  | none => .error .adult
  | some is_adult =>
  match fs.get? 5 with
  | none => .error .eof
  | some f5 =>
  match (if f5 = notAvail then .ok none else
          match parseU16 f5 with
          | some n => .ok (some n)
          | none => .error Err.startYear : Except Err (Option Nat)) with
  | .error e => .error e
  | .ok start_year =>
  match fs.get? 6 with
  | none => .error .eof
  | some f6 =>
  match (if f6 = notAvail then .ok none else
          match parseU16 f6 with
          | some n => .ok (some n)
          | none => .error Err.endYear : Except Err (Option Nat)) with
  | .error e => .error e
  | .ok end_year =>
  match fs.get? 7 with
  | none => .error .eof
  | some f7 =>
  match (if f7 = notAvail then .ok none else
          match parseU16 f7 with
          | some n => .ok (some n)
          | none => .error Err.runtimeMinutes : Except Err (Option Nat)) with
  | .error e => .error e
  | .ok runtime_minutes =>
  match fs.get? 8 with
  | none => .error .eof
  | some f8 =>
  match (if f8 = notAvail then .ok Genres.default else
          (splitFields f8 ',').foldlM
            (fun acc g =>
              match Genre.fromStr g with
              | some gg => .ok (acc.addGenre gg)
              | none => .error Err.genre)
            Genres.default : Except Err Genres) with
  | .error e => .error e
  | .ok genres =>
    .ok (some { title_id, title_type, primary_title, original_title,
                is_adult, start_year, end_year, runtime_minutes, genres })

/-- Basics::add_basics_from_line of basics.rs.  The source parses every
field before touching any state (every error return precedes the first
mutation), then in the movie branch takes the fresh cookie movies.len(),
pushes the record, registers the lowercased primary title under the start
year, and, only when the original title differs from the primary title,
also registers the lowercased original title; the series branch is the
mirror image.  Returns the updated shard together with the Res<()>
outcome. -/
def add_basics_from_line (self : Basics) (line : String) : Basics × Except Err Unit :=
  match parseBasicsLine line with
  | .error e => (self, .error e)
  | .ok none => (self, .ok ())
  | .ok (some title) =>
    if title.title_type.isMovie then
      let cookie := self.movies.length
      let movies := self.movies ++ [title]
      let mt := insert_title self.movies_titles cookie (strToLower title.primary_title) title.start_year
      let mt :=
        if title.original_title ≠ title.primary_title then
          insert_title mt cookie (strToLower title.original_title) title.start_year
        else mt
      ({ self with movies := movies, movies_titles := mt }, .ok ())
    else if title.title_type.isSeries then
      let cookie := self.series.length
      let series := self.series ++ [title]
      let st := insert_title self.series_titles cookie (strToLower title.primary_title) title.start_year
      let st :=
        if title.original_title ≠ title.primary_title then
          insert_title st cookie (strToLower title.original_title) title.start_year
        else st
      ({ self with series := series, series_titles := st }, .ok ())
    else (self, .ok ())

/-- Basics::movies_by_title_year: the cookies registered under exactly the
given name and Some(year), dereferenced through the movie index. -/
def Basics.movies_by_title_year (self : Basics) (name : String) (year : Nat) : List TitleBasics :=
  match lookupA self.movies_titles name with
  | none => []
  | some by_year =>
    match lookupA by_year (some year) with
    | none => []
    | some cookies => cookies.map self.movieAt

/-- Basics::movies_by_title: the cookies registered under the given name
across every year bucket (including the no-year bucket), dereferenced
through the movie index. -/
def Basics.movies_by_title (self : Basics) (name : String) : List TitleBasics :=
  match lookupA self.movies_titles name with
  | none => []
  | some by_year => ((by_year.map (·.2)).flatten).map self.movieAt

/-- Basics::series_by_title_year. -/
def Basics.series_by_title_year (self : Basics) (name : String) (year : Nat) : List TitleBasics :=
  match lookupA self.series_titles name with
  | none => []
  | some by_year =>
    match lookupA by_year (some year) with
    | none => []
    | some cookies => cookies.map self.seriesAt

/-- Basics::series_by_title. -/
def Basics.series_by_title (self : Basics) (name : String) : List TitleBasics :=
  match lookupA self.series_titles name with
  | none => []
  | some by_year => ((by_year.map (·.2)).flatten).map self.seriesAt

/-- A sequence of add_basics_from_line calls starting from a given shard,
keeping the state of each call whatever its outcome (the source leaves the
shard untouched on an error return, since every error precedes the first
mutation). -/
def addSeq (self : Basics) (lines : List String) : Basics :=
  lines.foldl (fun b l => (add_basics_from_line b l).1) self

/-- The cookie list stored under one name and one year key, read exactly
the way the lookup operations read it. -/
def yearCookies (db : ByTitle) (title : String) (year : Option Nat) : List Nat :=
  ((lookupA db title).map (fun by_year => (lookupA by_year year).getD [])).getD []

/-- An IEEE binary32 value: some z is the finite value z * 2^-149 (every
finite binary32 value is an integer multiple of 2^-149, the smallest
subnormal), none stands for the non-finite values (the infinities and
NaN), which the rating path never stores (using one downstream makes
to_int_unchecked undefined).  Models the f32 values flowing through
ratings.rs. -/
abbrev F32 : Type := Option Int

/-- Fuel-based binary logarithm; with fuel at least the logarithm of n it
computes the floor of log2 n (and natLog2 below always passes enough). -/
def log2F : Nat → Nat → Nat
  | 0, _ => 0
  | fuel + 1, n => if n ≤ 1 then 0 else log2F fuel (n / 2) + 1

/-- The floor of the binary logarithm of a natural number. -/
def natLog2 (n : Nat) : Nat := log2F n n

/-- Rounds the fraction N / D (with D positive) to the nearest natural
number, ties to even: the IEEE default rounding used by binary32. -/
def roundEvenND (N D : Nat) : Nat :=
  let q := N / D
  let r := N % D
  if 2 * r < D then q
  else if D < 2 * r then q + 1
  else if q % 2 = 0 then q else q + 1

/-- Whether 2^k ≤ n / d, for naturals n and d with d positive. -/
def pow2le (d : Nat) (k : Int) (n : Nat) : Bool :=
  if 0 ≤ k then decide (d * 2 ^ k.toNat ≤ n) else decide (d ≤ n * 2 ^ (-k).toNat)

/-- The binary exponent of the positive fraction n / d: the e with
2^e ≤ n / d < 2^(e+1), computed from the bit lengths with a bounded
correction. -/
def ilog2ND (n d : Nat) : Int :=
  let k : Int := (natLog2 n : Int) - (natLog2 d : Int)
  if pow2le d (k + 1) n then k + 1 else if pow2le d k n then k else k - 1

/-- Correct rounding of the positive fraction n / d (both at least 1) to
the nearest IEEE binary32 magnitude, ties to even, in units of 2^-149:
tiny values round inside the subnormal grid, values whose exponent leaves
the 8-bit range overflow to infinity (none), and every other value becomes
the nearest m * 2^(e-23) with 2^23 ≤ m < 2^24. -/
def roundF32PosND (n d : Nat) : Option Nat :=
  let e := ilog2ND n d
  if e < -126 then some (roundEvenND (n * 2 ^ 149) d)
  else if 127 < e then none
  else
    let s : Int := 23 - e
    let N := if 0 ≤ s then n * 2 ^ s.toNat else n
    let D := if 0 ≤ s then d else d * 2 ^ (-s).toNat
    let m := roundEvenND N D
    if m = 2 ^ 24 then
      if 127 < e + 1 then none else some (2 ^ (e + 150).toNat)
    else some (m * 2 ^ (e + 126).toNat)

/-- Correct rounding of a signed exact fraction to binary32: zero stays
zero, otherwise the magnitude is rounded by roundF32PosND and the sign
reattached. -/
def roundF32ND (neg : Bool) (n d : Nat) : F32 :=
  if n = 0 then some 0
  else
    match roundF32PosND n d with
    | none => none
    | some z => some (if neg then -(z : Int) else (z : Int))

/-- Models f32::from_str from the std library as used by
add_rating_from_line: digit accumulation that also counts the digits
consumed, shared by the mantissa and exponent parts. -/
def parseF32Digits (cs : List Char) : Option (Nat × Nat) :=
  cs.foldl (fun acc c =>
    match acc with
    | none => none
    | some (v, n) => if c.isDigit then some (v * 10 + (c.toNat - 48), n + 1) else none)
    (some (0, 0))

/-- The decimal mantissa grammar of f32::from_str: digits, an optional dot
with further digits, at least one digit overall; yields the value scaled by
10 to the number of fractional digits. -/
def parseF32Mantissa (cs : List Char) : Option (Nat × Nat) :=
  match splitOnChar '.' cs with
  | [whole] =>
    match parseF32Digits whole with
    | some (v, n) => if n = 0 then none else some (v, 0)
    | none => none
  | [whole, frac] =>
    match parseF32Digits whole, parseF32Digits frac with
    | some (w, nw), some (f, nf) =>
      if nw + nf = 0 then none else some (w * 10 ^ nf + f, nf)
    | _, _ => none
  | _ => none

/-- The signed decimal value v * 10^t correctly rounded to binary32. -/
def decimalToF32 (neg : Bool) (v : Nat) (t : Int) : F32 :=
  if 0 ≤ t then roundF32ND neg (v * 10 ^ t.toNat) 1
  else roundF32ND neg v (10 ^ (-t).toNat)

/-- Models f32::from_str from the std library as used by
add_rating_from_line: an optional sign, then either the case-insensitive
special tokens inf, infinity and nan (non-finite, none inside some), or a
decimal mantissa (digits with an optional dot, at least one digit overall)
with an optional e or E exponent, correctly rounded to binary32.  An outer
none is a parse error (ParseFloatError). -/
def parseF32 (s : String) : Option F32 :=
  let cs := s.data.map Char.toLower
  let (neg, rest) :=
    match cs with
    | '-' :: r => (true, r)
    | '+' :: r => (false, r)
    | r => (false, r)
  if rest = [ 'i', 'n', 'f'] ∨ rest = [ 'i', 'n', 'f', 'i', 'n', 'i', 't', 'y'] ∨
     rest = [ 'n', 'a', 'n'] then some none
  else
    let parts := splitOnChar 'e' rest
    match parts with
    | [mant] =>
      match parseF32Mantissa mant with
      | some (v, nf) => some (decimalToF32 neg v (-(nf : Int)))
      | none => none
    | [mant, expo] =>
      match parseF32Mantissa mant with
      | none => none
      | some (v, nf) =>
        let (esign, edigits) :=
          match expo with
          | '-' :: rest => ((-1 : Int), rest)
          | '+' :: rest => ((1 : Int), rest)
          | rest => ((1 : Int), rest)
        match parseF32Digits edigits with
        | some (ev, en) =>
          if en = 0 then none
          else some (decimalToF32 neg v (esign * (ev : Int) - (nf : Int)))
        | none => none
    | _ => none

/-- IEEE binary32 multiplication on the model: the exact product of the
two finite values (z * 2^-149 each, so the product over 2^298) correctly
rounded; any non-finite operand gives a non-finite result (NaN and the
infinities are collapsed into none, which is enough because the only
downstream consumer is undefined on all of them). -/
def mulF32 (x y : F32) : F32 :=
  match x, y with
  | some a, some b =>
    let p := a * b
    roundF32ND (decide (p < 0)) p.natAbs (2 ^ 298)
  | _, _ => none

/-- The f32 literal 10.0 multiplied against the parsed rating, in the
2^-149 units of the model. -/
def f32Ten : F32 := some (10 * 2 ^ 149)

/-- Models to_int_unchecked into u8 on the rating value z * 2^-149:
truncation toward zero; none when the behavior is undefined (non-finite
value, or a truncated value outside 0..255). -/
def toIntUncheckedU8 (x : F32) : Option Nat :=
  match x with
  | none => none
  | some z =>
    if 0 ≤ z then
      let t := z.toNat / 2 ^ 149
      if t ≤ 255 then some t else none
    else if z.natAbs < 2 ^ 149 then some 0 else none


/-- The Ratings table of ratings.rs: the FnvHashMap from the decoded title
identifier to the (scaled rating, vote count) pair, modelled as an
association list in insertion order. -/
abbrev Ratings : Type := List (Nat × (Nat × Nat))

/-- Models HashMap::insert: replaces the value of an existing key in place
and returns the previous value, or appends a fresh entry and returns
none. -/
def hmInsert (m : Ratings) (k : Nat) (v : Nat × Nat) : Ratings × Option (Nat × Nat) :=
  match m with
  | [] => ([(k, v)], none)
  | (k', v') :: rest =>
    if k' = k then ((k, v) :: rest, some v')
    else
      let (m', old) := hmInsert rest k v
      ((k', v') :: m', old)

/-- Ratings::add_rating_from_line of ratings.rs: empty lines are skipped;
the identifier, the f32 rating and the vote count are decoded in source
order; the rating is scaled by the f32 multiplication with 10.0 and
truncated by to_int_unchecked before the vote count is read; the pair is
inserted into the map, and only then a previous occupant of the key raises
DuplicateIdentifier, so the new pair stays in the table.  The outer Option
is the undefined-behavior marker of the unchecked truncation (never hit by
well-formed rating fields); the inner pair is the updated table and the
Res<()> outcome. -/
def add_rating_from_line (self : Ratings) (line : String) : Option (Ratings × Except Err Unit) :=
  if line = "" then some (self, .ok ())
  else
    let fs := splitFields line '\t'
    match fs.get? 0 with
    | none => some (self, .error .eof)
    | some f0 =>
    match parseTitleId f0 with
    | .error e => some (self, .error e)
    | .ok title_id =>
    match fs.get? 1 with
    | none => some (self, .error .eof)
    | some f1 =>
    match parseF32 f1 with
    | none => some (self, .error .rating)
    | some fv =>
    match toIntUncheckedU8 (mulF32 fv f32Ten) with
    | none => none
    | some rating =>
    match fs.get? 2 with
    | none => some (self, .error .eof)
    | some f2 =>
    match parseU64 f2 with
    | none => some (self, .error .votes)
    | some votes =>
      let (m, old) := hmInsert self title_id (rating, votes)
      if old.isSome then some (m, .error (.duplicateId title_id))
      else some (m, .ok ())

/-- The per-line loop of Ratings::new_from_buf: feed each line into
add_rating_from_line, stopping at the first error (the question mark
operator propagates it and the partially built table is dropped). -/
def ratingsFold (self : Ratings) (lines : List String) : Option (Except Err Ratings) :=
  match lines with
  | [] => some (.ok self)
  | l :: rest =>
    match add_rating_from_line self l with
    | none => none
    | some (r', .ok _) => ratingsFold r' rest
    | some (_, .error e) => some (.error e)

/-- Ratings::new_from_buf of ratings.rs: split the buffer on newlines,
skip the header line, and fold the remaining lines into an initially empty
table, propagating the first error. -/
def new_from_buf (buf : String) : Option (Except Err Ratings) :=
  ratingsFold [] ((splitFields buf '\n').drop 1)

/-- One parsing worker of Service::parse_basics in service.rs: feed every
nonempty line of the batches this thread claimed, in order, into its
private shard; a parse error makes the worker thread panic mid-loop, so it
never yields a shard (none). -/
def workerRun (lines : List String) : Option Basics :=
  workerGo Basics.default lines
where
  /-- The claimed-lines loop of one worker. -/
  workerGo (b : Basics) : List String → Option Basics
  | [] => some b
  | l :: rest =>
    if l = "" then workerGo b rest
    else
      match add_basics_from_line b l with
      | (b', .ok _) => workerGo b' rest
      | (_, .error _) => none

/-- Service::parse_basics of service.rs, with the scheduling made
explicit: assignment lists, per worker thread, the lines that thread
claimed from the shared cursor (in claim order).  Each worker builds its
shard with workerRun; the orchestrator joins the threads in spawn order,
pushes every shard whose join succeeded, and merely logs a join failure (a
worker that panicked on a parse error), so the function always returns Ok
with the surviving shards. -/
def parse_basics (assignment : List (List String)) : Except Err (List Basics) :=
  .ok (assignment.filterMap workerRun)

/-- Service::query of service.rs: spawn one task per shard computing f on
it (the spawn loop walks the shard slice with split_first in shard order),
then join the handles in the same order, extending the result vector with
each partial result. -/
def Service.query (dbs : List Basics) (f : Basics → List TitleBasics) : List TitleBasics :=
  let handles := dbs.map f
  handles.foldl (fun res titles => res ++ titles) []

/-- Fuel-based decimal digit rendering (most significant first); natToStr
below always passes enough fuel. -/
def natDigits : Nat → Nat → List Char
  | 0, _ => []
  | fuel + 1, n =>
    if n < 10 then [Char.ofNat (48 + n)]
    else natDigits fuel (n / 10) ++ [Char.ofNat (48 + n % 10)]

/-- Canonical decimal rendering of a natural number, used to state the
family of one-fractional-digit rating fields. -/
def natToStr (n : Nat) : String := String.mk (natDigits (n + 1) n)

/-- The predicate of the rating-format claim: the field is a decimal with
exactly one fractional digit (a nonempty run of digits, a dot, one
digit). -/
def isOneFracDecimal (s : String) : Bool :=
  match splitOnChar '.' s.data with
  | [whole, [f]] => ¬ whole.isEmpty ∧ whole.all Char.isDigit ∧ f.isDigit
  | _ => false


/-- A cookie occurring anywhere inside a name index (in any year bucket of
any name entry, whether or not shadowed). -/
def Mentions (db : ByTitle) (c : Nat) : Prop :=
  ∃ p ∈ db, ∃ q ∈ p.2, c ∈ q.2

/-- The cookie-validity invariant of a shard: every cookie stored anywhere
inside the movie name index is a valid index into the movie vector, and
likewise for series; this is exactly what makes the unchecked indexing of
the Index impls in bounds. -/
def CookieInv (b : Basics) : Prop :=
  (∀ c, Mentions b.movies_titles c → c < b.movies.length) ∧
  (∀ c, Mentions b.series_titles c → c < b.series.length)

theorem lookupA_mem {α β : Type} [DecidableEq α] {l : List (α × β)} {k : α} {v : β}
    (h : lookupA l k = some v) : (k, v) ∈ l := by
  induction l with
  | nil => simp [lookupA] at h
  | cons p rest ih =>
    obtain ⟨k', v'⟩ := p
    by_cases hk : k' = k
    · subst hk
      simp [lookupA] at h
      simp [h]
    · simp only [lookupA, if_neg hk] at h
      exact List.mem_cons_of_mem _ (ih h)

theorem insertYear_lookup (by_year : ByYear) (y₀ : Option Nat) (c₀ : Nat) (y : Option Nat) :
    lookupA (insertYear by_year y₀ c₀) y =
      if y = y₀ then some ((lookupA by_year y).getD [] ++ [c₀]) else lookupA by_year y := by
  induction by_year with
  | nil =>
    simp only [insertYear, lookupA]
    by_cases hy : y = y₀
    · subst hy; simp
    · rw [if_neg (Ne.symm hy), if_neg hy]
  | cons p rest ih =>
    obtain ⟨y', cs⟩ := p
    simp only [insertYear]
    by_cases h0 : y' = y₀
    · rw [if_pos h0]
      subst h0
      by_cases hy : y = y'
      · subst hy; simp [lookupA]
      · simp only [lookupA, if_neg (Ne.symm hy), if_neg hy]
    · rw [if_neg h0]
      by_cases hy : y' = y
      · subst hy
        have hyn : ¬ y' = y₀ := h0
        simp only [lookupA, if_pos rfl, if_neg hyn]
        simp
      · simp only [lookupA, if_neg hy]
        rw [ih]

theorem insert_title_lookup (db : ByTitle) (c₀ : Nat) (t₀ : String) (y₀ : Option Nat) (t : String) :
    lookupA (insert_title db c₀ t₀ y₀) t =
      if t = t₀ then some (insertYear ((lookupA db t₀).getD []) y₀ c₀) else lookupA db t := by
  induction db with
  | nil =>
    simp only [insert_title, lookupA]
    by_cases ht : t = t₀
    · subst ht; simp [insertYear]
    · rw [if_neg (Ne.symm ht), if_neg ht]
  | cons p rest ih =>
    obtain ⟨t', by_year⟩ := p
    simp only [insert_title]
    by_cases h0 : t' = t₀
    · rw [if_pos h0]
      subst h0
      by_cases ht : t = t'
      · subst ht; simp [lookupA]
      · simp only [lookupA, if_neg (Ne.symm ht), if_neg ht]
    · rw [if_neg h0]
      by_cases ht : t' = t
      · subst ht
        have htn : ¬ t' = t₀ := h0
        simp only [lookupA, if_pos rfl, if_neg htn]
        simp
      · simp only [lookupA, if_neg ht]
        rw [ih]
        simp only [lookupA, if_neg h0]

theorem yearCookies_eq (db : ByTitle) (t : String) (y : Option Nat) :
    yearCookies db t y = (lookupA ((lookupA db t).getD []) y).getD [] := by
  unfold yearCookies
  cases h : lookupA db t <;> simp [h, lookupA]

theorem yearCookies_insert (db : ByTitle) (c₀ : Nat) (t₀ : String) (y₀ : Option Nat)
    (t : String) (y : Option Nat) :
    yearCookies (insert_title db c₀ t₀ y₀) t y =
      yearCookies db t y ++ (if t = t₀ ∧ y = y₀ then [c₀] else []) := by
  rw [yearCookies_eq, yearCookies_eq, insert_title_lookup]
  by_cases ht : t = t₀
  · subst ht
    rw [if_pos rfl, Option.getD_some, insertYear_lookup]
    by_cases hy : y = y₀
    · rw [if_pos hy, Option.getD_some, if_pos ⟨rfl, hy⟩]
    · rw [if_neg hy, if_neg (fun h => hy h.2), List.append_nil]
  · rw [if_neg ht, if_neg (fun h => ht h.1), List.append_nil]

theorem mentions_insertYear {by_year : ByYear} {y₀ : Option Nat} {c₀ : Nat} {q : Option Nat × List Nat}
    (hq : q ∈ insertYear by_year y₀ c₀) :
    ∀ c ∈ q.2, (∃ q' ∈ by_year, c ∈ q'.2) ∨ c = c₀ := by
  induction by_year with
  | nil =>
    simp only [insertYear, List.mem_singleton] at hq
    subst hq
    intro c hc
    simp only [List.mem_singleton] at hc
    exact Or.inr hc
  | cons p rest ih =>
    obtain ⟨y', cs⟩ := p
    simp only [insertYear] at hq
    by_cases h0 : y' = y₀
    · rw [if_pos h0] at hq
      rcases List.mem_cons.1 hq with h | h
      · subst h
        intro c hc
        rcases List.mem_append.1 hc with h' | h'
        · exact Or.inl ⟨(y', cs), List.mem_cons_self _ _, h'⟩
        · exact Or.inr (List.mem_singleton.1 h')
      · intro c hc
        exact Or.inl ⟨q, List.mem_cons_of_mem _ h, hc⟩
    · rw [if_neg h0] at hq
      rcases List.mem_cons.1 hq with h | h
      · subst h
        intro c hc
        exact Or.inl ⟨(y', cs), List.mem_cons_self _ _, hc⟩
      · intro c hc
        rcases ih h c hc with ⟨q', hq', hc'⟩ | h'
        · exact Or.inl ⟨q', List.mem_cons_of_mem _ hq', hc'⟩
        · exact Or.inr h'

theorem mentions_insert_title {db : ByTitle} {c₀ : Nat} {t₀ : String} {y₀ : Option Nat} {c : Nat}
    (h : Mentions (insert_title db c₀ t₀ y₀) c) : Mentions db c ∨ c = c₀ := by
  induction db with
  | nil =>
    obtain ⟨p, hp, q, hq, hc⟩ := h
    simp only [insert_title, List.mem_singleton] at hp
    subst hp
    simp only [List.mem_singleton] at hq
    subst hq
    simp only [List.mem_singleton] at hc
    exact Or.inr hc
  | cons e rest ih =>
    obtain ⟨t', by_year⟩ := e
    obtain ⟨p, hp, q, hq, hc⟩ := h
    simp only [insert_title] at hp
    by_cases h0 : t' = t₀
    · rw [if_pos h0] at hp
      rcases List.mem_cons.1 hp with he | he
      · subst he
        rcases mentions_insertYear hq c hc with ⟨q', hq', hc'⟩ | hcc
        · exact Or.inl ⟨(t', by_year), List.mem_cons_self _ _, q', hq', hc'⟩
        · exact Or.inr hcc
      · exact Or.inl ⟨p, List.mem_cons_of_mem _ he, q, hq, hc⟩
    · rw [if_neg h0] at hp
      rcases List.mem_cons.1 hp with he | he
      · subst he
        exact Or.inl ⟨(t', by_year), List.mem_cons_self _ _, q, hq, hc⟩
      · rcases ih ⟨p, he, q, hq, hc⟩ with hm | hcc
        · obtain ⟨p', hp', q', hq', hc'⟩ := hm
          exact Or.inl ⟨p', List.mem_cons_of_mem _ hp', q', hq', hc'⟩
        · exact Or.inr hcc

theorem yearCookies_mentions {db : ByTitle} {t : String} {y : Option Nat} {c : Nat}
    (h : c ∈ yearCookies db t y) : Mentions db c := by
  rw [yearCookies_eq] at h
  cases h1 : lookupA db t with
  | none => rw [h1] at h; simp [lookupA] at h
  | some bY =>
    rw [h1] at h
    simp only [Option.getD_some] at h
    cases h2 : lookupA bY y with
    | none => rw [h2] at h; simp at h
    | some cs =>
      rw [h2] at h
      simp only [Option.getD_some] at h
      exact ⟨(t, bY), lookupA_mem h1, (y, cs), lookupA_mem h2, h⟩

theorem addB_inv (b : Basics) (l : String) (h : CookieInv b) :
    CookieInv (add_basics_from_line b l).1 := by
  cases hp : parseBasicsLine l with
  | error e => simpa [add_basics_from_line, hp] using h
  | ok o =>
    cases o with
    | none => simpa [add_basics_from_line, hp] using h
    | some title =>
      by_cases hm : title.title_type.isMovie = true
      · by_cases ho : title.original_title = title.primary_title
        · simp only [add_basics_from_line, hp, hm, if_true, ho, ne_eq, not_true_eq_false,
            if_false]
          refine ⟨?_, ?_⟩
          · intro c hc
            simp only [List.length_append, List.length_singleton]
            rcases mentions_insert_title hc with hm' | hc'
            · exact Nat.lt_succ_of_lt (h.1 c hm')
            · exact hc' ▸ Nat.lt_succ_self _
          · intro c hc
            exact h.2 c hc
        · simp only [add_basics_from_line, hp, hm, if_true, ne_eq, ho, not_false_eq_true]
          refine ⟨?_, ?_⟩
          · intro c hc
            simp only [List.length_append, List.length_singleton]
            rcases mentions_insert_title hc with hc2 | hc'
            · rcases mentions_insert_title hc2 with hm' | hc'
              · exact Nat.lt_succ_of_lt (h.1 c hm')
              · exact hc' ▸ Nat.lt_succ_self _
            · exact hc' ▸ Nat.lt_succ_self _
          · intro c hc
            exact h.2 c hc
      · by_cases hs : title.title_type.isSeries = true
        · by_cases ho : title.original_title = title.primary_title
          · simp only [add_basics_from_line, hp, hm, Bool.false_eq_true, if_false, hs, if_true,
              ho, ne_eq, not_true_eq_false]
            refine ⟨?_, ?_⟩
            · intro c hc
              exact h.1 c hc
            · intro c hc
              simp only [List.length_append, List.length_singleton]
              rcases mentions_insert_title hc with hm' | hc'
              · exact Nat.lt_succ_of_lt (h.2 c hm')
              · exact hc' ▸ Nat.lt_succ_self _
          · simp only [add_basics_from_line, hp, hm, Bool.false_eq_true, if_false, hs, if_true,
              ne_eq, ho, not_false_eq_true]
            refine ⟨?_, ?_⟩
            · intro c hc
              exact h.1 c hc
            · intro c hc
              simp only [List.length_append, List.length_singleton]
              rcases mentions_insert_title hc with hc2 | hc'
              · rcases mentions_insert_title hc2 with hm' | hc'
                · exact Nat.lt_succ_of_lt (h.2 c hm')
                · exact hc' ▸ Nat.lt_succ_self _
              · exact hc' ▸ Nat.lt_succ_self _
        · simpa [add_basics_from_line, hp, hm, hs] using h

/-- The registration pattern of the movie and series branches of
add_basics_from_line: register the lowercased primary title under the
start year, and also the lowercased original title when it differs; used
to state the branch characterization of the insertion routine. -/
def registerTitle (db : ByTitle) (cookie : Nat) (title : TitleBasics) : ByTitle :=
  let db1 := insert_title db cookie (strToLower title.primary_title) title.start_year
  if title.original_title ≠ title.primary_title then
    insert_title db1 cookie (strToLower title.original_title) title.start_year
  else db1

theorem addB_cases (b : Basics) (l : String) :
    ((add_basics_from_line b l).1 = b) ∨
    (∃ title : TitleBasics, title.title_type.isMovie = true ∧
      add_basics_from_line b l =
        ({ b with movies := b.movies ++ [title],
                  movies_titles := registerTitle b.movies_titles b.movies.length title },
         .ok ())) ∨
    (∃ title : TitleBasics, title.title_type.isSeries = true ∧
      add_basics_from_line b l =
        ({ b with series := b.series ++ [title],
                  series_titles := registerTitle b.series_titles b.series.length title },
         .ok ())) := by
  cases hp : parseBasicsLine l with
  | error e => exact Or.inl (by simp [add_basics_from_line, hp])
  | ok o =>
    cases o with
    | none => exact Or.inl (by simp [add_basics_from_line, hp])
    | some title =>
      by_cases hm : title.title_type.isMovie = true
      · refine Or.inr (Or.inl ⟨title, hm, ?_⟩)
        simp only [add_basics_from_line, hp, hm, if_true, registerTitle]
      · by_cases hs : title.title_type.isSeries = true
        · refine Or.inr (Or.inr ⟨title, hs, ?_⟩)
          simp only [add_basics_from_line, hp, hm, Bool.false_eq_true, if_false, hs, if_true,
            registerTitle]
        · exact Or.inl (by simp [add_basics_from_line, hp, hm, hs])

theorem yearCookies_register (db : ByTitle) (cookie : Nat) (title : TitleBasics)
    (t : String) (y : Option Nat) :
    yearCookies (registerTitle db cookie title) t y =
      yearCookies db t y ++
        (if t = strToLower title.primary_title ∧ y = title.start_year then [cookie] else []) ++
        (if title.original_title ≠ title.primary_title ∧
            t = strToLower title.original_title ∧ y = title.start_year then [cookie] else []) := by
  unfold registerTitle
  by_cases ho : title.original_title = title.primary_title
  · simp only [ho, ne_eq, not_true_eq_false, if_false, false_and, List.append_nil]
    exact yearCookies_insert _ _ _ _ _ _
  · simp only [ne_eq, ho, not_false_eq_true, if_true, true_and]
    rw [yearCookies_insert, yearCookies_insert]

theorem count_ite_zero (P : Prop) [Decidable P] (k c : Nat) (h : c ≠ k) :
    List.count c (if P then [k] else []) = 0 := by
  split <;> simp [List.count_eq_zero, h]

theorem addB_movies_ext (b : Basics) (l : String) :
    ∃ ext, (add_basics_from_line b l).1.movies = b.movies ++ ext := by
  rcases addB_cases b l with h | ⟨title, _, h⟩ | ⟨title, _, h⟩
  · exact ⟨[], by simp [h]⟩
  · exact ⟨[title], by rw [h]⟩
  · exact ⟨[], by rw [h]; simp⟩

theorem addB_series_ext (b : Basics) (l : String) :
    ∃ ext, (add_basics_from_line b l).1.series = b.series ++ ext := by
  rcases addB_cases b l with h | ⟨title, _, h⟩ | ⟨title, _, h⟩
  · exact ⟨[], by simp [h]⟩
  · exact ⟨[], by rw [h]; simp⟩
  · exact ⟨[title], by rw [h]⟩

theorem addB_mcookies_ext (b : Basics) (l : String) (t : String) (y : Option Nat) :
    ∃ ext, yearCookies (add_basics_from_line b l).1.movies_titles t y =
      yearCookies b.movies_titles t y ++ ext := by
  rcases addB_cases b l with h | ⟨title, _, h⟩ | ⟨title, _, h⟩
  · exact ⟨[], by simp [h]⟩
  · refine ⟨(if t = strToLower title.primary_title ∧ y = title.start_year
        then [b.movies.length] else []) ++
      (if title.original_title ≠ title.primary_title ∧
          t = strToLower title.original_title ∧ y = title.start_year
        then [b.movies.length] else []), ?_⟩
    rw [h]
    show yearCookies (registerTitle b.movies_titles b.movies.length title) t y = _
    rw [yearCookies_register, List.append_assoc]
  · exact ⟨[], by rw [h]; simp⟩

theorem addB_scookies_ext (b : Basics) (l : String) (t : String) (y : Option Nat) :
    ∃ ext, yearCookies (add_basics_from_line b l).1.series_titles t y =
      yearCookies b.series_titles t y ++ ext := by
  rcases addB_cases b l with h | ⟨title, _, h⟩ | ⟨title, _, h⟩
  · exact ⟨[], by simp [h]⟩
  · exact ⟨[], by rw [h]; simp⟩
  · refine ⟨(if t = strToLower title.primary_title ∧ y = title.start_year
        then [b.series.length] else []) ++
      (if title.original_title ≠ title.primary_title ∧
          t = strToLower title.original_title ∧ y = title.start_year
        then [b.series.length] else []), ?_⟩
    rw [h]
    show yearCookies (registerTitle b.series_titles b.series.length title) t y = _
    rw [yearCookies_register, List.append_assoc]

theorem addB_mcount (b : Basics) (l : String) {c : Nat} (hc : c < b.movies.length)
    (t : String) (y : Option Nat) :
    List.count c (yearCookies (add_basics_from_line b l).1.movies_titles t y) =
      List.count c (yearCookies b.movies_titles t y) := by
  rcases addB_cases b l with h | ⟨title, _, h⟩ | ⟨title, _, h⟩
  · rw [h]
  · rw [h]
    show List.count c (yearCookies (registerTitle b.movies_titles b.movies.length title) t y) = _
    rw [yearCookies_register, List.count_append, List.count_append,
      count_ite_zero _ _ _ (Nat.ne_of_lt hc), count_ite_zero _ _ _ (Nat.ne_of_lt hc)]
    omega
  · rw [h]

theorem addB_scount (b : Basics) (l : String) {c : Nat} (hc : c < b.series.length)
    (t : String) (y : Option Nat) :
    List.count c (yearCookies (add_basics_from_line b l).1.series_titles t y) =
      List.count c (yearCookies b.series_titles t y) := by
  rcases addB_cases b l with h | ⟨title, _, h⟩ | ⟨title, _, h⟩
  · rw [h]
  · rw [h]
  · rw [h]
    show List.count c (yearCookies (registerTitle b.series_titles b.series.length title) t y) = _
    rw [yearCookies_register, List.count_append, List.count_append,
      count_ite_zero _ _ _ (Nat.ne_of_lt hc), count_ite_zero _ _ _ (Nat.ne_of_lt hc)]
    omega

theorem addSeq_cons (b : Basics) (l : String) (ls : List String) :
    addSeq b (l :: ls) = addSeq (add_basics_from_line b l).1 ls := rfl

theorem addSeq_inv (ls : List String) (b : Basics) (h : CookieInv b) :
    CookieInv (addSeq b ls) := by
  induction ls generalizing b with
  | nil => exact h
  | cons l ls ih => exact ih _ (addB_inv b l h)

theorem addSeq_movies_ext (ls : List String) (b : Basics) :
    ∃ ext, (addSeq b ls).movies = b.movies ++ ext := by
  induction ls generalizing b with
  | nil => exact ⟨[], by simp [addSeq]⟩
  | cons l ls ih =>
    obtain ⟨e1, h1⟩ := addB_movies_ext b l
    obtain ⟨e2, h2⟩ := ih (add_basics_from_line b l).1
    exact ⟨e1 ++ e2, by rw [addSeq_cons, h2, h1, List.append_assoc]⟩

theorem addSeq_series_ext (ls : List String) (b : Basics) :
    ∃ ext, (addSeq b ls).series = b.series ++ ext := by
  induction ls generalizing b with
  | nil => exact ⟨[], by simp [addSeq]⟩
  | cons l ls ih =>
    obtain ⟨e1, h1⟩ := addB_series_ext b l
    obtain ⟨e2, h2⟩ := ih (add_basics_from_line b l).1
    exact ⟨e1 ++ e2, by rw [addSeq_cons, h2, h1, List.append_assoc]⟩

theorem addSeq_mcookies_ext (ls : List String) (b : Basics) (t : String) (y : Option Nat) :
    ∃ ext, yearCookies (addSeq b ls).movies_titles t y =
      yearCookies b.movies_titles t y ++ ext := by
  induction ls generalizing b with
  | nil => exact ⟨[], by simp [addSeq]⟩
  | cons l ls ih =>
    obtain ⟨e1, h1⟩ := addB_mcookies_ext b l t y
    obtain ⟨e2, h2⟩ := ih (add_basics_from_line b l).1
    exact ⟨e1 ++ e2, by rw [addSeq_cons, h2, h1, List.append_assoc]⟩

theorem addSeq_scookies_ext (ls : List String) (b : Basics) (t : String) (y : Option Nat) :
    ∃ ext, yearCookies (addSeq b ls).series_titles t y =
      yearCookies b.series_titles t y ++ ext := by
  induction ls generalizing b with
  | nil => exact ⟨[], by simp [addSeq]⟩
  | cons l ls ih =>
    obtain ⟨e1, h1⟩ := addB_scookies_ext b l t y
    obtain ⟨e2, h2⟩ := ih (add_basics_from_line b l).1
    exact ⟨e1 ++ e2, by rw [addSeq_cons, h2, h1, List.append_assoc]⟩

theorem addSeq_mcount (ls : List String) (b : Basics) {c : Nat} (hc : c < b.movies.length)
    (t : String) (y : Option Nat) :
    List.count c (yearCookies (addSeq b ls).movies_titles t y) =
      List.count c (yearCookies b.movies_titles t y) := by
  induction ls generalizing b with
  | nil => rfl
  | cons l ls ih =>
    obtain ⟨e1, h1⟩ := addB_movies_ext b l
    have hc' : c < (add_basics_from_line b l).1.movies.length := by
      rw [h1, List.length_append]
      exact Nat.lt_of_lt_of_le hc (Nat.le_add_right _ _)
    rw [addSeq_cons, ih _ hc', addB_mcount b l hc]

theorem addSeq_scount (ls : List String) (b : Basics) {c : Nat} (hc : c < b.series.length)
    (t : String) (y : Option Nat) :
    List.count c (yearCookies (addSeq b ls).series_titles t y) =
      List.count c (yearCookies b.series_titles t y) := by
  induction ls generalizing b with
  | nil => rfl
  | cons l ls ih =>
    obtain ⟨e1, h1⟩ := addB_series_ext b l
    have hc' : c < (add_basics_from_line b l).1.series.length := by
      rw [h1, List.length_append]
      exact Nat.lt_of_lt_of_le hc (Nat.le_add_right _ _)
    rw [addSeq_cons, ih _ hc', addB_scount b l hc]

theorem getD_append_length {α : Type} (l1 : List α) (a : α) (l2 : List α) (d : α) :
    (l1 ++ a :: l2).getD l1.length d = a := by
  induction l1 with
  | nil => rfl
  | cons x xs ih => simpa using ih

theorem getD_append_lt {α : Type} (l1 l2 : List α) (i : Nat) (d : α) (h : i < l1.length) :
    (l1 ++ l2).getD i d = l1.getD i d := by
  induction l1 generalizing i with
  | nil => exact absurd h (Nat.not_lt_zero i)
  | cons x xs ih =>
    cases i with
    | zero => rfl
    | succ n => simpa using ih n (Nat.lt_of_succ_lt_succ h)

theorem cookieInv_default : CookieInv Basics.default := by
  constructor <;>
    · intro c hc
      obtain ⟨p, hp, _⟩ := hc
      simp [Basics.default] at hp

theorem movieAt_mem_by_title {b : Basics} {name : String} {y : Option Nat} {c : Nat}
    (hc : c ∈ yearCookies b.movies_titles name y) :
    b.movieAt c ∈ b.movies_by_title name := by
  rw [yearCookies_eq] at hc
  cases h1 : lookupA b.movies_titles name with
  | none => rw [h1] at hc; simp [lookupA] at hc
  | some bY =>
    rw [h1] at hc
    simp only [Option.getD_some] at hc
    cases h2 : lookupA bY y with
    | none => rw [h2] at hc; simp at hc
    | some cs =>
      rw [h2] at hc
      simp only [Option.getD_some] at hc
      simp only [Basics.movies_by_title, h1]
      exact List.mem_map_of_mem _
        (List.mem_flatten.2 ⟨cs, List.mem_map_of_mem _ (lookupA_mem h2), hc⟩)

theorem seriesAt_mem_by_title {b : Basics} {name : String} {y : Option Nat} {c : Nat}
    (hc : c ∈ yearCookies b.series_titles name y) :
    b.seriesAt c ∈ b.series_by_title name := by
  rw [yearCookies_eq] at hc
  cases h1 : lookupA b.series_titles name with
  | none => rw [h1] at hc; simp [lookupA] at hc
  | some bY =>
    rw [h1] at hc
    simp only [Option.getD_some] at hc
    cases h2 : lookupA bY y with
    | none => rw [h2] at hc; simp at hc
    | some cs =>
      rw [h2] at hc
      simp only [Option.getD_some] at hc
      simp only [Basics.series_by_title, h1]
      exact List.mem_map_of_mem _
        (List.mem_flatten.2 ⟨cs, List.mem_map_of_mem _ (lookupA_mem h2), hc⟩)

theorem c6aux_movie (pre post : List String) (L : String) (b₁ b₂ b₃ : Basics) (r : TitleBasics)
    (hb₁ : b₁ = addSeq Basics.default pre)
    (hstep : add_basics_from_line b₁ L = (b₂, Except.ok ()))
    (hb₃ : b₃ = addSeq b₂ post)
    (hlen : b₂.movies.length = b₁.movies.length + 1)
    (hr : r = b₂.movies.getD b₁.movies.length dummyTitle) :
    (r.original_title ≠ r.primary_title →
      r ∈ b₃.movies_by_title (strToLower r.primary_title) ∧
      r ∈ b₃.movies_by_title (strToLower r.original_title)) ∧
    (r.original_title = r.primary_title →
      List.count b₁.movies.length
        (yearCookies b₃.movies_titles (strToLower r.primary_title) r.start_year) = 1) := by
  have hinv : CookieInv b₁ := by
    rw [hb₁]; exact addSeq_inv pre Basics.default cookieInv_default
  rcases addB_cases b₁ L with hcase | ⟨title, hm, hcase⟩ | ⟨title, hs, hcase⟩
  · exfalso
    rw [hstep] at hcase
    have hb : b₂ = b₁ := hcase
    rw [hb] at hlen
    omega
  · have hb₂ : b₂ = { b₁ with
        movies := b₁.movies ++ [title],
        movies_titles := registerTitle b₁.movies_titles b₁.movies.length title } := by
      rw [hstep] at hcase
      exact congrArg Prod.fst hcase
    have hmv : b₂.movies = b₁.movies ++ [title] := by rw [hb₂]
    have hmt : b₂.movies_titles = registerTitle b₁.movies_titles b₁.movies.length title := by
      rw [hb₂]
    have hrt : r = title := by
      rw [hr, hmv]
      exact getD_append_length _ _ _ _
    subst hrt
    have hlt : b₁.movies.length < b₂.movies.length := by omega
    constructor
    · intro ho
      have hmem1 : b₁.movies.length ∈
          yearCookies b₂.movies_titles (strToLower r.primary_title) r.start_year := by
        rw [hmt, yearCookies_register]
        simp
      have hmem2 : b₁.movies.length ∈
          yearCookies b₂.movies_titles (strToLower r.original_title) r.start_year := by
        rw [hmt, yearCookies_register]
        simp [ho]
      obtain ⟨e1, he1⟩ := addSeq_mcookies_ext post b₂ (strToLower r.primary_title) r.start_year
      obtain ⟨e2, he2⟩ := addSeq_mcookies_ext post b₂ (strToLower r.original_title) r.start_year
      have hat : b₃.movieAt b₁.movies.length = r := by
        obtain ⟨e, he⟩ := addSeq_movies_ext post b₂
        unfold Basics.movieAt
        rw [hb₃, he, getD_append_lt _ _ _ _ hlt, hmv]
        exact getD_append_length _ _ _ _
      refine ⟨?_, ?_⟩
      · have hm1 : b₁.movies.length ∈
            yearCookies b₃.movies_titles (strToLower r.primary_title) r.start_year := by
          rw [hb₃, he1]
          exact List.mem_append_left _ hmem1
        have := movieAt_mem_by_title hm1
        rwa [hat] at this
      · have hm2 : b₁.movies.length ∈
            yearCookies b₃.movies_titles (strToLower r.original_title) r.start_year := by
          rw [hb₃, he2]
          exact List.mem_append_left _ hmem2
        have := movieAt_mem_by_title hm2
        rwa [hat] at this
    · intro ho
      have hcnt2 : List.count b₁.movies.length
          (yearCookies b₂.movies_titles (strToLower r.primary_title) r.start_year) =
          List.count b₁.movies.length
            (yearCookies b₁.movies_titles (strToLower r.primary_title) r.start_year) + 1 := by
        rw [hmt, yearCookies_register, if_pos ⟨rfl, rfl⟩, if_neg (by simp [ho])]
        rw [List.count_append, List.count_append]
        simp
      have hcnt1 : List.count b₁.movies.length
          (yearCookies b₁.movies_titles (strToLower r.primary_title) r.start_year) = 0 := by
        rw [List.count_eq_zero]
        intro hmem
        exact absurd (hinv.1 _ (yearCookies_mentions hmem)) (Nat.lt_irrefl _)
      rw [hb₃, addSeq_mcount post b₂ hlt, hcnt2, hcnt1]
  · exfalso
    have hb₂ : b₂ = { b₁ with
        series := b₁.series ++ [title],
        series_titles := registerTitle b₁.series_titles b₁.series.length title } := by
      rw [hstep] at hcase
      exact congrArg Prod.fst hcase
    have : b₂.movies = b₁.movies := by rw [hb₂]
    rw [this] at hlen
    omega

theorem c6aux_series (pre post : List String) (L : String) (b₁ b₂ b₃ : Basics) (r : TitleBasics)
    (hb₁ : b₁ = addSeq Basics.default pre)
    (hstep : add_basics_from_line b₁ L = (b₂, Except.ok ()))
    (hb₃ : b₃ = addSeq b₂ post)
    (hlen : b₂.series.length = b₁.series.length + 1)
    (hr : r = b₂.series.getD b₁.series.length dummyTitle) :
    (r.original_title ≠ r.primary_title →
      r ∈ b₃.series_by_title (strToLower r.primary_title) ∧
      r ∈ b₃.series_by_title (strToLower r.original_title)) ∧
    (r.original_title = r.primary_title →
      List.count b₁.series.length
        (yearCookies b₃.series_titles (strToLower r.primary_title) r.start_year) = 1) := by
  have hinv : CookieInv b₁ := by
    rw [hb₁]; exact addSeq_inv pre Basics.default cookieInv_default
  rcases addB_cases b₁ L with hcase | ⟨title, hm, hcase⟩ | ⟨title, hs, hcase⟩
  · exfalso
    rw [hstep] at hcase
    have hb : b₂ = b₁ := hcase
    rw [hb] at hlen
    omega
  · exfalso
    have hb₂ : b₂ = { b₁ with
        movies := b₁.movies ++ [title],
        movies_titles := registerTitle b₁.movies_titles b₁.movies.length title } := by
      rw [hstep] at hcase
      exact congrArg Prod.fst hcase
    have : b₂.series = b₁.series := by rw [hb₂]
    rw [this] at hlen
    omega
  · have hb₂ : b₂ = { b₁ with
        series := b₁.series ++ [title],
        series_titles := registerTitle b₁.series_titles b₁.series.length title } := by
      rw [hstep] at hcase
      exact congrArg Prod.fst hcase
    have hmv : b₂.series = b₁.series ++ [title] := by rw [hb₂]
    have hmt : b₂.series_titles = registerTitle b₁.series_titles b₁.series.length title := by
      rw [hb₂]
    have hrt : r = title := by
      rw [hr, hmv]
      exact getD_append_length _ _ _ _
    subst hrt
    have hlt : b₁.series.length < b₂.series.length := by omega
    constructor
    · intro ho
      have hmem1 : b₁.series.length ∈
          yearCookies b₂.series_titles (strToLower r.primary_title) r.start_year := by
        rw [hmt, yearCookies_register]
        simp
      have hmem2 : b₁.series.length ∈
          yearCookies b₂.series_titles (strToLower r.original_title) r.start_year := by
        rw [hmt, yearCookies_register]
        simp [ho]
      obtain ⟨e1, he1⟩ := addSeq_scookies_ext post b₂ (strToLower r.primary_title) r.start_year
      obtain ⟨e2, he2⟩ := addSeq_scookies_ext post b₂ (strToLower r.original_title) r.start_year
      have hat : b₃.seriesAt b₁.series.length = r := by
        obtain ⟨e, he⟩ := addSeq_series_ext post b₂
        unfold Basics.seriesAt
        rw [hb₃, he, getD_append_lt _ _ _ _ hlt, hmv]
        exact getD_append_length _ _ _ _
      refine ⟨?_, ?_⟩
      · have hm1 : b₁.series.length ∈
            yearCookies b₃.series_titles (strToLower r.primary_title) r.start_year := by
          rw [hb₃, he1]
          exact List.mem_append_left _ hmem1
        have := seriesAt_mem_by_title hm1
        rwa [hat] at this
      · have hm2 : b₁.series.length ∈
            yearCookies b₃.series_titles (strToLower r.original_title) r.start_year := by
          rw [hb₃, he2]
          exact List.mem_append_left _ hmem2
        have := seriesAt_mem_by_title hm2
        rwa [hat] at this
    · intro ho
      have hcnt2 : List.count b₁.series.length
          (yearCookies b₂.series_titles (strToLower r.primary_title) r.start_year) =
          List.count b₁.series.length
            (yearCookies b₁.series_titles (strToLower r.primary_title) r.start_year) + 1 := by
        rw [hmt, yearCookies_register, if_pos ⟨rfl, rfl⟩, if_neg (by simp [ho])]
        rw [List.count_append, List.count_append]
        simp
      have hcnt1 : List.count b₁.series.length
          (yearCookies b₁.series_titles (strToLower r.primary_title) r.start_year) = 0 := by
        rw [List.count_eq_zero]
        intro hmem
        exact absurd (hinv.2 _ (yearCookies_mentions hmem)) (Nat.lt_irrefl _)
      rw [hb₃, addSeq_scount post b₂ hlt, hcnt2, hcnt1]

set_option maxRecDepth 1000000

/-- The two same-identifier movie lines of the duplicate-identifier
claims: both carry tt0000001 with different payloads. -/
def c1LineA : String := "tt0000001\tmovie\tTest\tTest\t0\t2000\t\\N\t90\tDrama"

/-- See c1LineA. -/
def c1LineB : String := "tt0000001\tmovie\tCopy\tCopy\t0\t2001\t\\N\t80\tComedy"

/-- C1 counterexample: inserting two lines that carry the same identifier
tt0000001 into one shard does not fail: the second add_basics_from_line
call returns Ok and both records are stored (the shard ends with two movie
records whose identifiers are both 1).  Basics has no identifier index at
all, so the claimed DuplicateIdentifier error cannot arise. -/
theorem c1_counterexample :
    (add_basics_from_line (add_basics_from_line Basics.default c1LineA).1 c1LineB).2 =
      Except.ok () ∧
    (addSeq Basics.default [c1LineA, c1LineB]).movies.map (fun t => t.title_id) = [1, 1] := by
  decide

/-- C1 amended: the outcome of add_basics_from_line depends only on the
line, never on the shard state, so in particular an identifier already
present in the shard is not rejected: the duplicate record is appended
like any other. -/
theorem c1_no_duplicate_check (b b' : Basics) (line : String) :
    (add_basics_from_line b line).2 = (add_basics_from_line b' line).2 := by
  unfold add_basics_from_line
  cases parseBasicsLine line with
  | error e => rfl
  | ok o =>
    cases o with
    | none => rfl
    | some t =>
      cases hm : t.title_type.isMovie <;> cases hs : t.title_type.isSeries <;> simp [hm, hs]

/-- A line whose classification field does not decode, so its insertion
fails with the InvalidClassification error. -/
def c2BadLine : String := "tt0000009\tbogus\tA\tA\t0\t\\N\t\\N\t\\N\t\\N"

/-- C2 counterexample: a title input containing a line that fails to parse
(classification token bogus) does not make Service construction return
that error: the single worker panics, the orchestrator logs the failed
join and drops its shard, and parse_basics still returns Ok (here with an
empty shard list), so a Service value is returned to the caller. -/
theorem c2_counterexample :
    (add_basics_from_line Basics.default c2BadLine).2 = Except.error Err.titleType ∧
    parse_basics [[c2BadLine]] = Except.ok [] := by
  decide

/-- C2 amended: parse_basics never surfaces a worker error: whatever lines
the workers claim, it returns Ok with the shards of the workers that did
not panic (at most one shard per worker), so a parse failure silently
shrinks the shard list instead of failing construction. -/
theorem c2_construction_never_fails (assignment : List (List String)) :
    ∃ dbs, parse_basics assignment = Except.ok dbs ∧ dbs.length ≤ assignment.length :=
  ⟨assignment.filterMap workerRun, rfl, List.length_filterMap_le _ _⟩

/-- C3: in every shard reachable from the empty shard by a sequence of
add_basics_from_line calls, every cookie stored anywhere in the movie name
index is a valid index into the movie vector and every cookie stored in
the series name index is a valid index into the series vector; in
particular every cookie list reachable by the lookup operations is wholly
in bounds, so the unchecked indexing of the Index impls cannot go out of
bounds. -/
theorem c3_cookie_validity (lines : List String) :
    (∀ c, Mentions (addSeq Basics.default lines).movies_titles c →
        c < (addSeq Basics.default lines).n_movies) ∧
    (∀ c, Mentions (addSeq Basics.default lines).series_titles c →
        c < (addSeq Basics.default lines).n_series) ∧
    (∀ t y c, c ∈ yearCookies (addSeq Basics.default lines).movies_titles t y →
        c < (addSeq Basics.default lines).n_movies) ∧
    (∀ t y c, c ∈ yearCookies (addSeq Basics.default lines).series_titles t y →
        c < (addSeq Basics.default lines).n_series) := by
  have h := addSeq_inv lines Basics.default cookieInv_default
  exact ⟨h.1, h.2,
    fun t y c hc => h.1 c (yearCookies_mentions hc),
    fun t y c hc => h.2 c (yearCookies_mentions hc)⟩

/-- C4: for every shard list and every per-shard query function, the
merged result of Service.query is exactly the concatenation of the
per-shard results in shard order, hence as a multiset the union of the
per-shard results: each record value occurs in the merged result exactly
as many times as the sum of its per-shard occurrences, with no loss or
duplication.  This covers all the query surfaces (by name, by name and
year, by keywords), which differ only in the function dispatched per
shard. -/
theorem c4_query_merge (dbs : List Basics) (f : Basics → List TitleBasics) :
    Service.query dbs f = (dbs.map f).flatten ∧
    ∀ x : TitleBasics, List.count x (Service.query dbs f) =
      ((dbs.map f).map (fun l => List.count x l)).sum := by
  have key : ∀ (hs : List (List TitleBasics)) (acc : List TitleBasics),
      hs.foldl (fun res titles => res ++ titles) acc = acc ++ hs.flatten := by
    intro hs
    induction hs with
    | nil => intro acc; simp
    | cons h rest ih => intro acc; simp [ih, List.append_assoc]
  have hq : Service.query dbs f = (dbs.map f).flatten := by
    unfold Service.query
    simpa using key (dbs.map f) []
  refine ⟨hq, fun x => ?_⟩
  rw [hq]
  generalize dbs.map f = hs
  induction hs with
  | nil => rfl
  | cons h rest ih => simp [List.count_append, ih]

/-- The two lines of the worked example in the spec. -/
def c5Line1 : String := "tt0000001\tmovie\tTest\tTest\t0\t2000\t\\N\t90\tDrama"

/-- See c5Line1. -/
def c5Line2 : String := "tt0000002\tmovie\tOther\tOther\t0\t\\N\t\\N\t\\N\t\\N"

/-- C5: loading the two example lines into one shard yields two movies;
looking up name test with year 2000 returns exactly the record decoded
from the first line, and looking up name other returns exactly the record
decoded from the second line, whose start year is absent. -/
theorem c5_example_lookup :
    (addSeq Basics.default [c5Line1, c5Line2]).n_movies = 2 ∧
    (addSeq Basics.default [c5Line1, c5Line2]).movies_by_title_year "test" 2000 =
      [⟨1, .movie, "Test", "Test", false, some 2000, none, some 90, ⟨1⟩⟩] ∧
    (addSeq Basics.default [c5Line1, c5Line2]).movies_by_title "other" =
      [⟨2, .movie, "Other", "Other", false, none, none, none, ⟨0⟩⟩] ∧
    (⟨2, .movie, "Other", "Other", false, none, none, none, ⟨0⟩⟩ : TitleBasics).start_year =
      none := by
  decide

/-- A line whose identifier field is invalid but whose classification
field decodes to a non-movie non-series kind. -/
def c9BadIdLine : String := "xx\tshort"

/-- C9 counterexample: the claim quantifies over every line whose second
field parses as a classification that is neither movie nor series, but
add_basics_from_line decodes the identifier field first, so a line with an
invalid identifier and classification short fails with InvalidIdentifier
instead of returning success. -/
theorem c9_counterexample :
    TitleType.fromStr "short" = some TitleType.short ∧
    TitleType.short.isMovie = false ∧
    TitleType.short.isSeries = false ∧
    (splitFields c9BadIdLine '\t').get? 1 = some "short" ∧
    add_basics_from_line Basics.default c9BadIdLine = (Basics.default, Except.error Err.id) := by
  decide

/-- C9 amended: for every line whose first field is a valid identifier and
whose second field parses as a classification that is neither movie-like
nor series-like, add_basics_from_line returns success and leaves the shard
unchanged, regardless of the content, validity, or presence of the
remaining fields. -/
theorem c9_skip_non_movie_series (b : Basics) (line : String) (i s : String)
    (n : Nat) (t : TitleType)
    (h0 : (splitFields line '\t').get? 0 = some i)
    (hid : parseTitleId i = Except.ok n)
    (h1 : (splitFields line '\t').get? 1 = some s)
    (ht : TitleType.fromStr s = some t)
    (hm : t.isMovie = false)
    (hs : t.isSeries = false) :
    add_basics_from_line b line = (b, Except.ok ()) := by
  have hp : parseBasicsLine line = .ok none := by
    unfold parseBasicsLine
    simp only [h0, hid, h1, ht, hm, hs]
    simp
  simp [add_basics_from_line, hp]

/-- Witness for the amended C9 at a concrete line. -/
theorem c9_skip_non_movie_series_witness :
    add_basics_from_line Basics.default "tt0000005\tshort" = (Basics.default, Except.ok ()) :=
  c9_skip_non_movie_series Basics.default "tt0000005\tshort" "tt0000005" "short" 5
    TitleType.short (by decide) (by decide) (by decide) (by decide) (by decide) (by decide)

/-- C6: for every record successfully inserted by add_basics_from_line
into a shard reachable from the empty shard, taken at any later point of
the insertion sequence: when the original name differs byte-for-byte from
the primary name, the record is found by the name lookup under both
lowercased names; when the two names are equal, the cookie of the record is
registered exactly once under its lowercased primary name and start-year
key (no duplicate entry for that cookie under that key).  Both the movie
and the series side are covered. -/
theorem c6_name_registration (pre post : List String) (L : String)
    (b₁ b₂ b₃ : Basics) (r : TitleBasics)
    (hb₁ : b₁ = addSeq Basics.default pre)
    (hstep : add_basics_from_line b₁ L = (b₂, Except.ok ()))
    (hb₃ : b₃ = addSeq b₂ post) :
    (b₂.movies.length = b₁.movies.length + 1 →
      r = b₂.movies.getD b₁.movies.length dummyTitle →
      ((r.original_title ≠ r.primary_title →
          r ∈ b₃.movies_by_title (strToLower r.primary_title) ∧
          r ∈ b₃.movies_by_title (strToLower r.original_title)) ∧
       (r.original_title = r.primary_title →
          List.count b₁.movies.length
            (yearCookies b₃.movies_titles (strToLower r.primary_title) r.start_year) = 1))) ∧
    (b₂.series.length = b₁.series.length + 1 →
      r = b₂.series.getD b₁.series.length dummyTitle →
      ((r.original_title ≠ r.primary_title →
          r ∈ b₃.series_by_title (strToLower r.primary_title) ∧
          r ∈ b₃.series_by_title (strToLower r.original_title)) ∧
       (r.original_title = r.primary_title →
          List.count b₁.series.length
            (yearCookies b₃.series_titles (strToLower r.primary_title) r.start_year) = 1))) :=
  ⟨fun hlen hr => c6aux_movie pre post L b₁ b₂ b₃ r hb₁ hstep hb₃ hlen hr,
   fun hlen hr => c6aux_series pre post L b₁ b₂ b₃ r hb₁ hstep hb₃ hlen hr⟩

/-- The movie line of the C6 witness, with distinct primary and original
names. -/
def c6wLine : String := "tt0000003\tmovie\tAbc\tXyz\t0\t1999\t\\N\t\\N\tDrama"

/-- Witness for C6 at a concrete insertion: the record inserted from
c6wLine is found by name lookup under both of its lowercased names. -/
theorem c6_name_registration_witness :
    (add_basics_from_line Basics.default c6wLine).1.movies.getD 0 dummyTitle ∈
      (add_basics_from_line Basics.default c6wLine).1.movies_by_title
        (strToLower ((add_basics_from_line Basics.default c6wLine).1.movies.getD 0
          dummyTitle).primary_title) ∧
    (add_basics_from_line Basics.default c6wLine).1.movies.getD 0 dummyTitle ∈
      (add_basics_from_line Basics.default c6wLine).1.movies_by_title
        (strToLower ((add_basics_from_line Basics.default c6wLine).1.movies.getD 0
          dummyTitle).original_title) := by
  have h := c6_name_registration [] [] c6wLine (addSeq Basics.default [])
    (add_basics_from_line (addSeq Basics.default []) c6wLine).1
    (addSeq (add_basics_from_line (addSeq Basics.default []) c6wLine).1 [])
    ((add_basics_from_line (addSeq Basics.default []) c6wLine).1.movies.getD
      (addSeq Basics.default []).movies.length dummyTitle)
    rfl (by decide) rfl
  exact (h.1 (by decide) rfl).1 (by decide)

theorem hmInsert_snd {r : Ratings} {k : Nat} {v x : Nat × Nat} (h : lookupA r k = some v) :
    (hmInsert r k x).2 = some v := by
  induction r with
  | nil => simp [lookupA] at h
  | cons p rest ih =>
    obtain ⟨k', v'⟩ := p
    by_cases hk : k' = k
    · subst hk
      simp [lookupA] at h
      simp [hmInsert, h]
    · simp only [lookupA, if_neg hk] at h
      cases hrec : hmInsert rest k x with
      | mk m o =>
        have := ih h
        rw [hrec] at this
        simp only [hmInsert, if_neg hk, hrec]
        exact this

theorem hmInsert_lookup (r : Ratings) (k : Nat) (x : Nat × Nat) :
    lookupA (hmInsert r k x).1 k = some x := by
  induction r with
  | nil => simp [hmInsert, lookupA]
  | cons p rest ih =>
    obtain ⟨k', v'⟩ := p
    by_cases hk : k' = k
    · subst hk
      simp [hmInsert, lookupA]
    · cases hrec : hmInsert rest k x with
      | mk m o =>
        rw [hrec] at ih
        simp only [hmInsert, if_neg hk, hrec]
        simp only [lookupA, if_neg hk]
        exact ih

/-- C7 counterexample: the rating field is parsed by f32 from_str, which
accepts far more than decimals with exactly one fractional digit; the
field 8 is not such a decimal yet the line parses successfully and stores
the scaled rating 80, instead of failing with a numeric-parse error as the
claim requires. -/
theorem c7_counterexample :
    isOneFracDecimal "8" = false ∧
    add_rating_from_line [] "tt0000001\t8\t15000" =
      some ([(1, (80, 15000))], Except.ok ()) := by
  decide

/-- C7 amended: the rating field is parsed as a 32-bit float (so integer
and other float-formatted fields are also accepted, not only
one-fractional-digit decimals); for every canonical one-fractional-digit
decimal d.f with value at most 10.0 (10 d + f ≤ 100) the f32 scaling by
10.0 and unchecked truncation are exact, and the stored rating is exactly
10 d + f with the parsed vote count. -/
theorem c7_rating_scaling (d f : Nat) (hd : d < 11) (hf : f < 10) (hv : 10 * d + f ≤ 100) :
    isOneFracDecimal (natToStr d ++ "." ++ natToStr f) = true ∧
    add_rating_from_line [] ("tt0000001\t" ++ natToStr d ++ "." ++ natToStr f ++ "\t15000") =
      some ([(1, (10 * d + f, 15000))], Except.ok ()) := by
  have h : ∀ x ∈ List.range 11, ∀ y ∈ List.range 10, 10 * x + y ≤ 100 →
      isOneFracDecimal (natToStr x ++ "." ++ natToStr y) = true ∧
      add_rating_from_line [] ("tt0000001\t" ++ natToStr x ++ "." ++ natToStr y ++ "\t15000") =
        some ([(1, (10 * x + y, 15000))], Except.ok ()) := by decide
  exact h d (List.mem_range.2 hd) f (List.mem_range.2 hf) hv

/-- Witness for the amended C7 at the spec example rating 8.4: the stored
pair is (84, 15000). -/
theorem c7_rating_scaling_witness :
    isOneFracDecimal (natToStr 8 ++ "." ++ natToStr 4) = true ∧
    add_rating_from_line [] ("tt0000001\t" ++ natToStr 8 ++ "." ++ natToStr 4 ++ "\t15000") =
      some ([(1, (84, 15000))], Except.ok ()) :=
  c7_rating_scaling 8 4 (by decide) (by decide) (by decide)

/-- C8: inserting a rating line whose identifier is already present in the
table fails with DuplicateIdentifier carrying that identifier, and the
per-line loop of new_from_buf propagates this error, so construction of
the table fails; the last conjunct shows a whole buffer with a duplicate
failing through new_from_buf. -/
theorem c8_ratings_duplicate (r : Ratings) (line : String)
    (i rf vf : String) (id votes : Nat) (fv : F32) (rv : Nat) (old : Nat × Nat)
    (hne : ¬ line = "")
    (h0 : (splitFields line '\t').get? 0 = some i)
    (hid : parseTitleId i = Except.ok id)
    (h1 : (splitFields line '\t').get? 1 = some rf)
    (hfv : parseF32 rf = some fv)
    (hrv : toIntUncheckedU8 (mulF32 fv f32Ten) = some rv)
    (h2 : (splitFields line '\t').get? 2 = some vf)
    (hvt : parseU64 vf = some votes)
    (hmem : lookupA r id = some old) :
    (add_rating_from_line r line =
      some ((hmInsert r id (rv, votes)).1, Except.error (Err.duplicateId id))) ∧
    (∀ rest : List String,
      ratingsFold r (line :: rest) = some (Except.error (Err.duplicateId id))) ∧
    new_from_buf "h\ntt0000001\t8.4\t15000\ntt0000001\t7.0\t20" =
      some (Except.error (Err.duplicateId 1)) := by
  have hsnd := hmInsert_snd (x := (rv, votes)) hmem
  have hadd : add_rating_from_line r line =
      some ((hmInsert r id (rv, votes)).1, Except.error (Err.duplicateId id)) := by
    unfold add_rating_from_line
    simp only [if_neg hne, h0, hid, h1, hfv, hrv, h2, hvt]
    cases hrec : hmInsert r id (rv, votes) with
    | mk m o =>
      rw [hrec] at hsnd
      simp only at hsnd
      subst hsnd
      simp
  refine ⟨hadd, fun rest => ?_, by decide⟩
  unfold ratingsFold
  rw [hadd]

/-- Witness for C8 at a concrete duplicate: the table already maps
identifier 1, and inserting a second rating line for tt0000001 fails with
DuplicateIdentifier 1; the per-line loop propagates the error. -/
theorem c8_ratings_duplicate_witness :
    add_rating_from_line [(1, (84, 15000))] "tt0000001\t9.1\t5" =
      some ([(1, (91, 5))], Except.error (Err.duplicateId 1)) ∧
    ratingsFold [(1, (84, 15000))] ["tt0000001\t9.1\t5"] =
      some (Except.error (Err.duplicateId 1)) := by
  have h := c8_ratings_duplicate [(1, (84, 15000))] "tt0000001\t9.1\t5"
    "tt0000001" "9.1" "5" 1 5 (some (9542042 * 2 ^ 129)) 91 (84, 15000)
    (by decide) (by decide) (by decide) (by decide) (by decide) (by decide) (by decide)
    (by decide) (by decide)
  exact ⟨h.1.trans (by decide), h.2.1 []⟩

/-- C10: when add_rating_from_line fails with DuplicateIdentifier, the
table is not left unchanged: the insert into the map happens before the
duplicate check, so after the error the identifier maps to the pair
decoded from the duplicate line, the earlier pair having been
overwritten. -/
theorem c10_overwrite_before_error (r : Ratings) (line : String)
    (i rf vf : String) (id votes : Nat) (fv : F32) (rv : Nat) (old : Nat × Nat)
    (hne : ¬ line = "")
    (h0 : (splitFields line '\t').get? 0 = some i)
    (hid : parseTitleId i = Except.ok id)
    (h1 : (splitFields line '\t').get? 1 = some rf)
    (hfv : parseF32 rf = some fv)
    (hrv : toIntUncheckedU8 (mulF32 fv f32Ten) = some rv)
    (h2 : (splitFields line '\t').get? 2 = some vf)
    (hvt : parseU64 vf = some votes)
    (hmem : lookupA r id = some old) :
    add_rating_from_line r line =
      some ((hmInsert r id (rv, votes)).1, Except.error (Err.duplicateId id)) ∧
    lookupA (hmInsert r id (rv, votes)).1 id = some (rv, votes) := by
  have hsnd := hmInsert_snd (x := (rv, votes)) hmem
  refine ⟨?_, hmInsert_lookup r id (rv, votes)⟩
  unfold add_rating_from_line
  simp only [if_neg hne, h0, hid, h1, hfv, hrv, h2, hvt]
  cases hrec : hmInsert r id (rv, votes) with
  | mk m o =>
    rw [hrec] at hsnd
    simp only at hsnd
    subst hsnd
    simp

/-- Witness for C10 at a concrete duplicate: after the failing insertion
the table maps identifier 2 to the pair decoded from the duplicate line,
not to the original pair. -/
theorem c10_overwrite_before_error_witness :
    add_rating_from_line [(2, (70, 99))] "tt0000002\t8.4\t20" =
      some ([(2, (84, 20))], Except.error (Err.duplicateId 2)) ∧
    lookupA ([(2, (84, 20))] : Ratings) 2 = some (84, 20) := by
  have h := c10_overwrite_before_error [(2, (70, 99))] "tt0000002\t8.4\t20"
    "tt0000002" "8.4" "20" 2 20 (some (8808038 * 2 ^ 129)) 84 (70, 99)
    (by decide) (by decide) (by decide) (by decide) (by decide) (by decide) (by decide)
    (by decide) (by decide)
  exact ⟨h.1.trans (by decide), by decide⟩
